import Mathlib

/-!
Shallow embedding of the resumable-upload server in `src/server.js`
(kirkphillip605/FileUpload).  The server keeps an in-memory map of active
upload sessions (`uploads`), an in-memory metadata catalog (`fileMetadata`),
a temp directory of in-progress blobs and a permanent uploads directory.
JS `Map`s are modelled as association lists (first binding wins, `set`
replaces in place or appends, `delete` removes), JS numbers as `Int`/`Nat`,
and filesystem failures (`fs.renameSync`, `fs.unlinkSync` throwing) as
explicit boolean parameters.
-/

namespace FileUpload

/-- Maximum declared upload length accepted by the server, 25 GiB:
server.js line 116 checks `uploadLength > 26843545600`. -/
def maxUploadLength : Int := 26843545600

/-- Value of a base64 alphabet character, `none` for padding or invalid
input: the decode table behind `Buffer.from(value, 'base64')` at
server.js line 130, modelled for well-formed base64 input. -/
def b64Val (c : Char) : Option Nat :=
  if 'A' ≤ c ∧ c ≤ 'Z' then some (c.toNat - 65)
  else if 'a' ≤ c ∧ c ≤ 'z' then some (c.toNat - 71)
  else if '0' ≤ c ∧ c ≤ '9' then some (c.toNat + 4)
  else if c = '+' then some 62
  else if c = '/' then some 63
  else none

/-- Decode a base64 character stream to byte values (RFC 4648 with `=`
padding, as Node's decoder behaves on well-formed input). -/
def b64DecodeBytes : List Char → List Nat
  | c1 :: c2 :: c3 :: c4 :: rest =>
    match b64Val c1, b64Val c2 with
    | some v1, some v2 =>
      let b1 := v1 * 4 + v2 / 16
      match b64Val c3 with
      | some v3 =>
        let b2 := (v2 % 16) * 16 + v3 / 4
        match b64Val c4 with
        | some v4 => b1 :: b2 :: ((v3 % 4) * 64 + v4) :: b64DecodeBytes rest
        | none => [b1, b2]
      | none => [b1]
    | _, _ => []
  | _ => []

/-- The decoded string `Buffer.from(value, 'base64').toString()` of
server.js line 130, modelled for byte values below 128 (ASCII), which covers
every value this development evaluates it on. -/
def b64DecodeToString (l : List Char) : String :=
  String.mk ((b64DecodeBytes l).map Char.ofNat)

/-- JS String.prototype.split with a single-character separator (used with
a comma and a space at server.js lines 128-129). -/
def splitOnChar (sep : Char) : List Char → List (List Char)
  | [] => [[]]
  | c :: rest =>
    let r := splitOnChar sep rest
    if c = sep then [] :: r
    else (c :: r.headD []) :: r.tail

/-- JS String.prototype.trim (server.js line 129). -/
def jsTrim (l : List Char) : List Char :=
  ((l.dropWhile Char.isWhitespace).reverse.dropWhile Char.isWhitespace).reverse

/-- One `key base64(value)` item of the Upload-Metadata header, server.js
lines 128-131: trim, split on a space, take the first two fields, decode the
value (a missing value decodes the empty string, as `value || ''`). -/
def parseMetaItem (item : List Char) : String × String :=
  let parts := splitOnChar ' ' (jsTrim item)
  (String.mk (parts.headD []), b64DecodeToString (parts.getD 1 []))

/-- Filename and filetype extraction from the Upload-Metadata header,
server.js lines 124-138: defaults `unknown` and `application/octet-stream`,
overridden by the first `filename` / `filetype` items when the header is
non-empty.  The decoded values are taken verbatim: the source contains no
sanitization step. -/
def extractMeta (header : String) : String × String :=
  if header = "" then ("unknown", "application/octet-stream")
  else
    let metadata := (splitOnChar ',' header.data).map parseMetaItem
    (((metadata.find? (fun m => decide (m.1 = "filename"))).map Prod.snd).getD
       "unknown",
     ((metadata.find? (fun m => decide (m.1 = "filetype"))).map Prod.snd).getD
       "application/octet-stream")

/-- Membership of a string in a list of strings (models fs.existsSync tests
against the set of blobs on disk). -/
def containsStr (l : List String) (s : String) : Bool :=
  l.any (fun b => decide (b = s))

/-- Whether a string contains a character (used to state the path-separator
property of claim C5). -/
def containsChar (s : String) (c : Char) : Bool :=
  s.data.any (fun a => decide (a = c))

/-- An active upload session, server.js lines 144-152.  `length` is `Int`
because `parseInt` can yield negative values that the creation check does
not reject; `offset` counts bytes durably written. -/
structure Session where
  id : Nat
  length : Int
  offset : Nat
  filename : String
  filetype : String
  created : Nat
deriving DecidableEq

/-- A finalized asset record, server.js lines 232-240. -/
structure AssetRecord where
  id : Nat
  originalName : String
  fileName : String
  size : Int
  mimetype : String
  uploadDate : Nat
  filePath : String
deriving DecidableEq

/-- Lookup in an association list modelling a JS `Map` (first binding
wins). -/
def lookupA {α : Type} (k : Nat) : List (Nat × α) → Option α
  | [] => none
  | p :: rest => if p.1 = k then some p.2 else lookupA k rest

/-- Replace every binding of `k` in place (`Map.set` on an existing key
keeps the original insertion position). -/
def updateA {α : Type} (k : Nat) (v : α) (l : List (Nat × α)) : List (Nat × α) :=
  l.map (fun p => if p.1 = k then (k, v) else p)

/-- `Map.set`: replace in place when the key is bound, else append. -/
def setA {α : Type} (k : Nat) (v : α) (l : List (Nat × α)) : List (Nat × α) :=
  if (lookupA k l).isSome then updateA k v l else l ++ [(k, v)]

/-- `Map.delete`. -/
def removeA {α : Type} (k : Nat) (l : List (Nat × α)) : List (Nat × α) :=
  l.filter (fun p => decide (p.1 ≠ k))

/-- The server's mutable state: the active-session map `uploads`
(server.js line 83), the catalog `fileMetadata` (line 47), the temp area
(session id bound to the blob's mtime in ms) and the permanent blob names. -/
structure ServerState where
  uploads : List (Nat × Session)
  assets : List (Nat × AssetRecord)
  tempFiles : List (Nat × Nat)
  blobs : List String
deriving DecidableEq

/-- Permanent blob name built at finalization, server.js line 227:
Date.now(), a dash, and the session's filename used verbatim. -/
def finalBlobName (now : Nat) (filename : String) : String :=
  toString now ++ "-" ++ filename

/-- path.basename for forward-slash paths, server.js line 235 (join
normalization of `..` segments is not modelled; no claim depends on it). -/
def jsBasename (s : String) : String :=
  String.mk ((splitOnChar '/' s.data).getLastD s.data)

/-- Result of POST /api/upload. -/
inductive CreateResult where
  | payloadTooLarge
  | created (uploadId : Nat)
deriving DecidableEq

/-- POST /api/upload, server.js lines 111-163.  `uploadLength` is the
`parseInt` of the Upload-Length header (`none` for NaN).  The JS guard
`!uploadLength || uploadLength > 26843545600` rejects NaN, 0 and oversize
with 413 before any allocation; anything else (negatives included) is
accepted: an empty temp blob is written and a session with offset 0 is
stored under a fresh id. -/
def createUpload (st : ServerState) (uploadLength : Option Int) (header : String)
    (newId : Nat) (now : Nat) : ServerState × CreateResult :=
  match uploadLength with
  | none => (st, .payloadTooLarge)
  | some n =>
    if n = 0 ∨ n > maxUploadLength then (st, .payloadTooLarge)
    else
      let meta := extractMeta header
      ({ st with
          uploads := setA newId
            { id := newId, length := n, offset := 0, filename := meta.1,
              filetype := meta.2, created := now } st.uploads,
          tempFiles := setA newId now st.tempFiles }, .created newId)

/-- The AssetRecord built at finalization, server.js lines 231-240: the
session object at that point carries the advanced offset; the record takes
its filename, declared length (as `size`) and filetype, plus the permanent
blob name. -/
def mkAssetRecord (upload : Session) (now newAssetId : Nat) : AssetRecord :=
  { id := newAssetId
    originalName := upload.filename
    fileName := jsBasename (finalBlobName now upload.filename)
    size := upload.length
    mimetype := upload.filetype
    uploadDate := now
    filePath := "uploads/" ++ finalBlobName now upload.filename }

/-- Result of PATCH /api/upload/:id. -/
inductive PatchResult where
  | notFound
  | offsetConflict
  | ok (newOffset : Nat)
deriving DecidableEq

/-- PATCH /api/upload/:id, server.js lines 186-269.  `claimedOffset` is the
`parseInt` of the Upload-Offset header (`none` for NaN, which never equals
the session offset).  On a match the chunk is written at the claimed offset,
the offset advances by the chunk length and the session is re-stored; if the
new offset reaches the declared length (`upload.offset >= upload.length`),
finalization runs: the temp blob is renamed to the permanent name, an
AssetRecord is stored in the catalog and the session is deleted.
`renameOk = false` models `fs.renameSync` throwing: the catch at lines
249-251 only logs, so the handler still answers 204 with the advanced offset
and the session stays in the map. -/
def patchUpload (st : ServerState) (uploadId : Nat) (claimedOffset : Option Int)
    (chunkLen : Nat) (renameOk : Bool) (now : Nat) (newAssetId : Nat) :
    ServerState × PatchResult :=
  match lookupA uploadId st.uploads with
  | none => (st, .notFound)
  | some upload =>
    if claimedOffset ≠ some (upload.offset : Int) then (st, .offsetConflict)
    else
      let newOffset := upload.offset + chunkLen
      let uploads1 := setA uploadId { upload with offset := newOffset } st.uploads
      if (newOffset : Int) ≥ upload.length then
        if renameOk then
          let record := mkAssetRecord { upload with offset := newOffset } now newAssetId
          ({ uploads := removeA uploadId uploads1,
             assets := setA newAssetId record st.assets,
             tempFiles := removeA uploadId st.tempFiles,
             blobs := st.blobs ++ [record.filePath] }, .ok newOffset)
        else
          ({ st with uploads := uploads1 }, .ok newOffset)
      else
        ({ st with uploads := uploads1 }, .ok newOffset)

/-- Drive a sequence of chunk appends against one session, each call
claiming the session's current offset (the exactly-matching client of the
spec) with every rename succeeding; `ctr` supplies distinct timestamps and
asset ids. -/
def runChunks (uploadId : Nat) : ServerState → List Nat → Nat → ServerState
  | st, [], _ => st
  | st, len :: rest, ctr =>
    let co := (lookupA uploadId st.uploads).map (fun u => (u.offset : Int))
    runChunks uploadId (patchUpload st uploadId co len true ctr ctr).1 rest (ctr + 1)

/-- A GET /api/files summary, server.js lines 321-328. -/
structure FileSummary where
  id : Nat
  name : String
  size : Int
  mimetype : String
deriving DecidableEq

/-- GET /api/files, server.js lines 319-336. -/
def listFiles (st : ServerState) : List FileSummary :=
  st.assets.map (fun p =>
    { id := p.2.id, name := p.2.originalName, size := p.2.size,
      mimetype := p.2.mimetype })

/-- Result of GET /api/download/:fileId. -/
inductive DownloadResult where
  | notFound
  | okStream (path : String) (name : String)
deriving DecidableEq

/-- GET /api/download/:fileId, server.js lines 339-372: 404 when the id is
unknown or the backing blob is missing on disk, otherwise the blob is
streamed. -/
def downloadFile (st : ServerState) (fileId : Nat) : DownloadResult :=
  match lookupA fileId st.assets with
  | none => .notFound
  | some m =>
    if containsStr st.blobs m.filePath then .okStream m.filePath m.originalName
    else .notFound

/-- Result of DELETE /api/files/:fileId. -/
inductive DeleteResult where
  | notFound
  | deleted
  | deleteFailed
deriving DecidableEq

/-- DELETE /api/files/:fileId, server.js lines 375-405.  When the blob
exists it is unlinked first; a throwing unlink (`unlinkOk = false`) is
caught and answered with 500 before the catalog is touched, so the catalog
entry is retained.  Otherwise the catalog entry is removed and persisted. -/
def deleteFile (st : ServerState) (fileId : Nat) (unlinkOk : Bool) :
    ServerState × DeleteResult :=
  match lookupA fileId st.assets with
  | none => (st, .notFound)
  | some m =>
    if containsStr st.blobs m.filePath then
      if unlinkOk then
        ({ st with blobs := st.blobs.filter (fun b => decide (b ≠ m.filePath)),
                   assets := removeA fileId st.assets }, .deleted)
      else (st, .deleteFailed)
    else
      ({ st with assets := removeA fileId st.assets }, .deleted)

/-- Retention threshold in milliseconds: server.js line 477 compares the age
in hours against 24. -/
def retentionMs : Nat := 24 * 60 * 60 * 1000

/-- cleanupTempFiles, server.js lines 468-487: every temp file whose age
exceeds 24 hours is unlinked; the active-session map is never consulted by
the sweep.  The program invokes it exactly once, at startup (line 487). -/
def cleanupTempFiles (st : ServerState) (now : Nat) : ServerState :=
  { st with
      tempFiles := st.tempFiles.filter (fun f => decide (¬ now - f.2 > retentionMs)) }

/-- Sample session for the concrete witnesses: declared length 10, offset 0,
filename a.txt (the scenario of spec section 8). -/
def sampleSession : Session :=
  { id := 1
    length := 10
    offset := 0
    filename := "a.txt"
    filetype := "text/plain"
    created := 0 }

/-- Sample server state holding the sample session and its temp blob. -/
def sampleState : ServerState :=
  { uploads := [(1, sampleSession)]
    assets := []
    tempFiles := [(1, 0)]
    blobs := [] }

/-- The empty server state (fresh boot, nothing persisted). -/
def emptyState : ServerState :=
  { uploads := [], assets := [], tempFiles := [], blobs := [] }

/-- Sample finalized asset for the delete/download witnesses. -/
def sampleAsset : AssetRecord :=
  { id := 5
    originalName := "a.txt"
    fileName := "100-a.txt"
    size := 10
    mimetype := "text/plain"
    uploadDate := 100
    filePath := "uploads/100-a.txt" }

/-- Sample state with one finalized asset in the catalog and on disk. -/
def assetState : ServerState :=
  { uploads := []
    assets := [(5, sampleAsset)]
    tempFiles := []
    blobs := ["uploads/100-a.txt"] }

/-! Association-list lemmas. -/

theorem lookupA_append_left {α : Type} {j : Nat} {l1 : List (Nat × α)}
    (l2 : List (Nat × α)) (h : (lookupA j l1).isSome) :
    lookupA j (l1 ++ l2) = lookupA j l1 := by
  induction l1 with
  | nil => simp [lookupA] at h
  | cons p rest ih =>
    by_cases hp : p.1 = j
    · simp [lookupA, hp]
    · simp only [lookupA, hp, if_false, List.cons_append] at h ⊢
      exact ih h

theorem lookupA_append_right {α : Type} {j : Nat} {l1 : List (Nat × α)}
    (l2 : List (Nat × α)) (h : lookupA j l1 = none) :
    lookupA j (l1 ++ l2) = lookupA j l2 := by
  induction l1 with
  | nil => simp
  | cons p rest ih =>
    by_cases hp : p.1 = j
    · simp [lookupA, hp] at h
    · simp only [lookupA, hp, if_false, List.cons_append] at h ⊢
      exact ih h

theorem lookupA_updateA {α : Type} (k j : Nat) (v : α) (l : List (Nat × α)) :
    lookupA j (updateA k v l) =
      if j = k then (lookupA k l).map (fun _ => v) else lookupA j l := by
  induction l with
  | nil => simp [lookupA, updateA]
  | cons p rest ih =>
    by_cases hp : p.1 = k
    · by_cases hj : j = k
      · subst hj; simp [lookupA, updateA, hp]
      · simp only [updateA, List.map_cons, hp, if_true, lookupA] at ih ⊢
        have hkj : ¬ (k = j) := fun h => hj h.symm
        have hpj : ¬ (p.1 = j) := by rw [hp]; exact hkj
        simp only [hkj, if_false, hpj, hj]
        simpa [updateA, hj] using ih
    · by_cases hj : j = k
      · subst hj
        have hpj : ¬ (p.1 = j) := hp
        simp only [updateA, List.map_cons, hp, if_false, lookupA, hpj] at ih ⊢
        simpa [updateA] using ih
      · by_cases hpj : p.1 = j
        · simp [updateA, lookupA, hp, hpj, hj]
        · simp only [updateA, List.map_cons, hp, if_false, lookupA, hpj] at ih ⊢
          simpa [updateA, hj] using ih

theorem lookupA_setA_self {α : Type} (k : Nat) (v : α) (l : List (Nat × α)) :
    lookupA k (setA k v l) = some v := by
  unfold setA
  by_cases h : (lookupA k l).isSome
  · rw [if_pos h, lookupA_updateA, if_pos rfl]
    rcases Option.isSome_iff_exists.mp h with ⟨w, hw⟩
    rw [hw, Option.map_some']
  · rw [if_neg h]
    have hn : lookupA k l = none := by
      cases hl : lookupA k l with
      | none => rfl
      | some w => rw [hl] at h; simp at h
    rw [lookupA_append_right _ hn]
    simp [lookupA]

theorem lookupA_setA_ne {α : Type} {k j : Nat} (v : α) (l : List (Nat × α))
    (hj : j ≠ k) :
    lookupA j (setA k v l) = lookupA j l := by
  unfold setA
  by_cases h : (lookupA k l).isSome
  · rw [if_pos h, lookupA_updateA, if_neg hj]
  · rw [if_neg h]
    cases hl : lookupA j l with
    | none =>
      rw [lookupA_append_right _ hl]
      have hkj : ¬ k = j := fun hh => hj hh.symm
      simp [lookupA, hkj]
    | some w =>
      rw [lookupA_append_left _ (by rw [hl]; rfl), hl]

theorem lookupA_setA_of_eq {α : Type} {k : Nat} {v : α} {l : List (Nat × α)}
    (h : lookupA k l = some v) :
    ∀ j, lookupA j (setA k v l) = lookupA j l := by
  intro j
  by_cases hj : j = k
  · subst hj; rw [lookupA_setA_self, h]
  · exact lookupA_setA_ne v l hj

theorem setA_of_absent {α : Type} {k : Nat} (v : α) {l : List (Nat × α)}
    (h : lookupA k l = none) :
    setA k v l = l ++ [(k, v)] := by
  unfold setA
  rw [h]
  rfl

theorem lookupA_removeA_self {α : Type} (k : Nat) (l : List (Nat × α)) :
    lookupA k (removeA k l) = none := by
  induction l with
  | nil => rfl
  | cons p rest ih =>
    by_cases hp : p.1 = k
    · simpa [removeA, hp] using ih
    · simpa [removeA, lookupA, hp] using ih

theorem lookupA_removeA_ne {α : Type} {k j : Nat} (l : List (Nat × α))
    (hj : j ≠ k) :
    lookupA j (removeA k l) = lookupA j l := by
  have hkj : ¬ k = j := fun hh => hj hh.symm
  induction l with
  | nil => rfl
  | cons p rest ih =>
    by_cases hp : p.1 = k
    · simpa [removeA, List.filter_cons, hp, lookupA, hj, hkj] using ih
    · by_cases hpj : p.1 = j
      · simp [removeA, List.filter_cons, hp, lookupA, hpj, hj, hkj]
      · simpa [removeA, List.filter_cons, hp, lookupA, hpj, hj, hkj] using ih

theorem mem_setA {α : Type} {q : Nat × α} {k : Nat} {v : α} {l : List (Nat × α)}
    (h : q ∈ setA k v l) : q ∈ l ∨ q = (k, v) := by
  unfold setA at h
  by_cases hs : (lookupA k l).isSome
  · rw [if_pos hs] at h
    rcases List.mem_map.mp h with ⟨p, hp, he⟩
    by_cases hpk : p.1 = k
    · right; rw [if_pos hpk] at he; exact he.symm
    · left; rw [if_neg hpk] at he; exact he ▸ hp
  · rw [if_neg hs] at h
    rcases List.mem_append.mp h with h1 | h1
    · exact Or.inl h1
    · exact Or.inr (List.mem_singleton.mp h1)

theorem mem_removeA {α : Type} {q : Nat × α} {k : Nat} {l : List (Nat × α)}
    (h : q ∈ removeA k l) : q ∈ l ∧ q.1 ≠ k := by
  have := List.mem_filter.mp h
  exact ⟨this.1, by simpa using this.2⟩

theorem containsStr_filter_self (l : List String) (s : String) :
    containsStr (l.filter (fun b => decide (b ≠ s))) s = false := by
  rw [Bool.eq_false_iff]
  intro hc
  rcases List.any_eq_true.mp hc with ⟨b, hb, hbs⟩
  have h2 := (List.mem_filter.mp hb).2
  simp only [decide_eq_true_eq] at h2 hbs
  exact h2 hbs

/-! Behaviour of the PATCH handler under each of its guards. -/

theorem patch_notFound {st : ServerState} {uploadId : Nat}
    (co : Option Int) (len : Nat) (rok : Bool) (now aid : Nat)
    (h : lookupA uploadId st.uploads = none) :
    patchUpload st uploadId co len rok now aid = (st, .notFound) := by
  simp [patchUpload, h]

theorem patch_conflict {st : ServerState} {uploadId : Nat} {u : Session}
    {co : Option Int} (len : Nat) (rok : Bool) (now aid : Nat)
    (h : lookupA uploadId st.uploads = some u)
    (hco : co ≠ some (u.offset : Int)) :
    patchUpload st uploadId co len rok now aid = (st, .offsetConflict) := by
  simp [patchUpload, h, hco]

theorem patch_advance {st : ServerState} {uploadId : Nat} {u : Session}
    {len : Nat} (rok : Bool) (now aid : Nat)
    (h : lookupA uploadId st.uploads = some u)
    (hlt : ((u.offset + len : Nat) : Int) < u.length) :
    patchUpload st uploadId (some (u.offset : Int)) len rok now aid =
      ({ st with uploads := setA uploadId { u with offset := u.offset + len } st.uploads },
       .ok (u.offset + len)) := by
  have hlt2 : ¬ (u.length ≤ (u.offset : Int) + (len : Int)) := by
    push_cast at hlt; omega
  simp [patchUpload, h, hlt2]

theorem patch_finalize_ok {st : ServerState} {uploadId : Nat} {u : Session}
    {len : Nat} (now aid : Nat)
    (h : lookupA uploadId st.uploads = some u)
    (hge : ((u.offset + len : Nat) : Int) ≥ u.length) :
    patchUpload st uploadId (some (u.offset : Int)) len true now aid =
      ({ uploads := removeA uploadId
           (setA uploadId { u with offset := u.offset + len } st.uploads)
         assets := setA aid (mkAssetRecord { u with offset := u.offset + len } now aid)
           st.assets
         tempFiles := removeA uploadId st.tempFiles
         blobs := st.blobs ++
           [(mkAssetRecord { u with offset := u.offset + len } now aid).filePath] },
       .ok (u.offset + len)) := by
  have hge2 : u.length ≤ (u.offset : Int) + (len : Int) := by
    push_cast at hge; omega
  simp [patchUpload, h, hge2]

theorem patch_finalize_fail {st : ServerState} {uploadId : Nat} {u : Session}
    {len : Nat} (now aid : Nat)
    (h : lookupA uploadId st.uploads = some u)
    (_hge : ((u.offset + len : Nat) : Int) ≥ u.length) :
    patchUpload st uploadId (some (u.offset : Int)) len false now aid =
      ({ st with uploads := setA uploadId { u with offset := u.offset + len } st.uploads },
       .ok (u.offset + len)) := by
  simp [patchUpload, h]

/-- Once the session is gone from the active map, any further driven chunk
calls 404 and leave the state untouched. -/
theorem runChunks_gone {uploadId : Nat} :
    ∀ (lens : List Nat) (st : ServerState) (ctr : Nat),
      lookupA uploadId st.uploads = none →
      runChunks uploadId st lens ctr = st := by
  intro lens
  induction lens with
  | nil => intro st ctr _; rfl
  | cons len rest ih =>
    intro st ctr h
    show runChunks uploadId
      (patchUpload st uploadId ((lookupA uploadId st.uploads).map
        (fun u => (u.offset : Int))) len true ctr ctr).1 rest (ctr + 1) = st
    rw [h, Option.map_none', patch_notFound _ _ _ _ _ h]
    exact ih st (ctr + 1) h

/-- Invariant-carrying induction behind claim C1: a session strictly below
its declared length whose remaining chunk lengths sum exactly to the
remainder finalizes exactly once and appends exactly one record of the
declared size to the catalog. -/
theorem runChunks_completes (sid : Nat) :
    ∀ (lens : List Nat) (st : ServerState) (ctr : Nat) (u : Session),
      lookupA sid st.uploads = some u →
      (u.offset : Int) + (lens.sum : Int) = u.length →
      (u.offset : Int) < u.length →
      (∀ i, ctr ≤ i → lookupA i st.assets = none) →
      lookupA sid (runChunks sid st lens ctr).uploads = none ∧
      ∃ k rec, (runChunks sid st lens ctr).assets = st.assets ++ [(k, rec)] ∧
        rec.size = u.length := by
  intro lens
  induction lens with
  | nil =>
    intro st ctr u _ hsum hlt _
    simp only [List.sum_nil, Nat.cast_zero, add_zero] at hsum
    omega
  | cons len rest ih =>
    intro st ctr u h hsum hlt hfresh
    have hstep : runChunks sid st (len :: rest) ctr =
        runChunks sid (patchUpload st sid (some (u.offset : Int)) len true ctr ctr).1
          rest (ctr + 1) := by
      show runChunks sid
        (patchUpload st sid ((lookupA sid st.uploads).map
          (fun w => (w.offset : Int))) len true ctr ctr).1 rest (ctr + 1) = _
      rw [h, Option.map_some']
    by_cases hc : ((u.offset + len : Nat) : Int) < u.length
    · -- the chunk does not yet complete the session
      rw [hstep, patch_advance true ctr ctr h hc]
      have h1 : lookupA sid
          (setA sid { u with offset := u.offset + len } st.uploads) =
          some { u with offset := u.offset + len } := lookupA_setA_self _ _ _
      have hsum1 : (({ u with offset := u.offset + len } : Session).offset : Int) +
          (rest.sum : Int) = ({ u with offset := u.offset + len } : Session).length := by
        simp only [List.sum_cons] at hsum
        push_cast at hsum ⊢
        omega
      have hfresh1 : ∀ i, ctr + 1 ≤ i → lookupA i st.assets = none :=
        fun i hi => hfresh i (Nat.le_of_succ_le hi)
      rcases ih { st with uploads := setA sid { u with offset := u.offset + len } st.uploads } (ctr + 1) _ h1 hsum1 hc hfresh1 with ⟨hgone, k, rec, hassets, hsize⟩
      exact ⟨hgone, k, rec, hassets, hsize⟩
    · -- the chunk reaches the declared length: finalization runs now
      have hge : ((u.offset + len : Nat) : Int) ≥ u.length := le_of_not_lt hc
      rw [hstep, patch_finalize_ok ctr ctr h hge]
      set u1 : Session := { u with offset := u.offset + len } with hu1
      set rec := mkAssetRecord u1 ctr ctr with hrec
      have hgone1 : lookupA sid (removeA sid (setA sid u1 st.uploads)) = none :=
        lookupA_removeA_self _ _
      have hrest : runChunks sid
          ({ uploads := removeA sid (setA sid u1 st.uploads)
             assets := setA ctr rec st.assets
             tempFiles := removeA sid st.tempFiles
             blobs := st.blobs ++ [rec.filePath] } : ServerState) rest (ctr + 1) =
          ({ uploads := removeA sid (setA sid u1 st.uploads)
             assets := setA ctr rec st.assets
             tempFiles := removeA sid st.tempFiles
             blobs := st.blobs ++ [rec.filePath] } : ServerState) :=
        runChunks_gone rest _ (ctr + 1) hgone1
      rw [hrest]
      refine ⟨hgone1, ctr, rec, ?_, ?_⟩
      · exact setA_of_absent rec (hfresh ctr (Nat.le_refl ctr))
      · rfl

/-- C1: for every sequence of AppendChunk calls on a session whose claimed
offsets each exactly match the session's running offset and whose byte
lengths sum to totalLength, the session finalizes exactly once: exactly one
AssetRecord is appended to the catalog, its size equals totalLength, and the
session is removed from the active-session set.  (All promotions succeed;
the fresh asset ids start at `ctr`.) -/
theorem c1_exact_chunk_sequence_finalizes_once
    (st : ServerState) (sid : Nat) (u : Session) (lens : List Nat) (ctr : Nat)
    (h : lookupA sid st.uploads = some u)
    (hoff : u.offset = 0)
    (hsum : (lens.sum : Int) = u.length)
    (hpos : 0 < u.length)
    (hfresh : ∀ i, ctr ≤ i → lookupA i st.assets = none) :
    lookupA sid (runChunks sid st lens ctr).uploads = none ∧
    ∃ k rec, (runChunks sid st lens ctr).assets = st.assets ++ [(k, rec)] ∧
      rec.size = u.length := by
  have hlt : (u.offset : Int) < u.length := by
    rw [hoff]; exact_mod_cast hpos
  have hsum2 : (u.offset : Int) + (lens.sum : Int) = u.length := by
    rw [hoff]; simpa using hsum
  exact runChunks_completes sid lens st ctr u h hsum2 hlt hfresh

/-- Witness for C1 on the spec's own scenario: length 10, chunks of 6 then 4
bytes at matching offsets. -/
theorem c1_witness :
    lookupA 1 (runChunks 1 sampleState [6, 4] 100).uploads = none ∧
    ∃ k rec, (runChunks 1 sampleState [6, 4] 100).assets =
      sampleState.assets ++ [(k, rec)] ∧ rec.size = sampleSession.length :=
  c1_exact_chunk_sequence_finalizes_once sampleState 1 sampleSession [6, 4] 100
    rfl rfl (by decide) (by decide) (fun i _ => rfl)

/-- C2: an AppendChunk whose claimed offset differs from the session's
current offset fails with OffsetConflict (409) and leaves the entire server
state -- in particular the session's offset -- unchanged, whatever the chunk
length. -/
theorem c2_offset_conflict_no_mutation
    (st : ServerState) (uploadId : Nat) (u : Session) (co : Option Int)
    (len : Nat) (rok : Bool) (now aid : Nat)
    (h : lookupA uploadId st.uploads = some u)
    (hco : co ≠ some (u.offset : Int)) :
    patchUpload st uploadId co len rok now aid = (st, PatchResult.offsetConflict) :=
  patch_conflict len rok now aid h hco

/-- Witness for C2: claiming offset 3 against the fresh sample session
(offset 0) conflicts and changes nothing. -/
theorem c2_witness :
    patchUpload sampleState 1 (some 3) 5 true 0 0 =
      (sampleState, PatchResult.offsetConflict) :=
  c2_offset_conflict_no_mutation sampleState 1 sampleSession (some 3) 5 true 0 0
    rfl (by decide)

/-- C3 counterexample: the creation guard accepts a negative declared
length, so immediately after that creation an active session violates
0 ≤ offset ≤ totalLength (offset 0, totalLength -5). -/
theorem c3_counterexample :
    ∃ p ∈ (createUpload emptyState (some (-5)) "" 2 0).1.uploads,
      ¬ ((p.2.offset : Int) ≤ p.2.length) := by decide

/-- C3 amended: offsets never decrease -- a chunk append only advances the
patched session's offset and leaves every other session untouched -- and
0 ≤ offset ≤ totalLength is preserved by appends whose promotion succeeds
and by creations with positive declared length.  (The bound can be violated
by a negative declared length at creation, and by an overshooting final
chunk whose promotion fails.) -/
theorem c3_amended_offsets_monotone_and_bounded
    (st : ServerState) (uploadId : Nat) (co : Option Int) (len : Nat)
    (now aid : Nat)
    (hinv : ∀ p ∈ st.uploads, ((p : Nat × Session).2.offset : Int) ≤ p.2.length) :
    (∀ p ∈ (patchUpload st uploadId co len true now aid).1.uploads,
        ((p : Nat × Session).2.offset : Int) ≤ p.2.length) ∧
    (∀ rok u u1, lookupA uploadId st.uploads = some u →
        lookupA uploadId (patchUpload st uploadId co len rok now aid).1.uploads =
          some u1 →
        u.offset ≤ u1.offset) ∧
    (∀ rok j, j ≠ uploadId →
        lookupA j (patchUpload st uploadId co len rok now aid).1.uploads =
          lookupA j st.uploads) ∧
    (∀ (n : Int) header newId cnow, (0 : Int) < n →
        ∀ p ∈ (createUpload st (some n) header newId cnow).1.uploads,
          ((p : Nat × Session).2.offset : Int) ≤ p.2.length) := by
  have hcreate : ∀ (n : Int) header newId cnow, (0 : Int) < n →
      ∀ p ∈ (createUpload st (some n) header newId cnow).1.uploads,
        ((p : Nat × Session).2.offset : Int) ≤ p.2.length := by
    intro n header newId cnow hn p hp
    by_cases hrej : n = 0 ∨ n > maxUploadLength
    · simp only [createUpload, hrej, if_true] at hp
      exact hinv p hp
    · simp only [createUpload, hrej, if_false] at hp
      rcases mem_setA hp with hmem | heq
      · exact hinv p hmem
      · rw [heq]
        simpa using le_of_lt hn
  cases hl : lookupA uploadId st.uploads with
  | none =>
    have hp : ∀ rok, patchUpload st uploadId co len rok now aid = (st, .notFound) :=
      fun rok => patch_notFound co len rok now aid hl
    refine ⟨?_, ?_, ?_, hcreate⟩
    · rw [hp true]; exact hinv
    · intro rok u u1 hu
      exact fun _ => absurd hu (by simp)
    · intro rok j _
      rw [hp rok]
  | some w =>
    by_cases hco : co = some (w.offset : Int)
    · subst hco
      by_cases hcl : ((w.offset + len : Nat) : Int) < w.length
      · have hp : ∀ rok, patchUpload st uploadId (some (w.offset : Int)) len rok now aid =
            ({ st with uploads := setA uploadId { w with offset := w.offset + len } st.uploads },
             .ok (w.offset + len)) :=
          fun rok => patch_advance rok now aid hl hcl
        refine ⟨?_, ?_, ?_, hcreate⟩
        · rw [hp true]
          intro p hpm
          rcases mem_setA hpm with hmem | heq
          · exact hinv p hmem
          · rw [heq]
            exact le_of_lt hcl
        · intro rok u u1 hu hu1
          injection hu with hu
          subst hu
          rw [hp rok] at hu1
          simp only [lookupA_setA_self] at hu1
          injection hu1 with hu1
          rw [← hu1]
          exact Nat.le_add_right _ _
        · intro rok j hj
          rw [hp rok]
          exact lookupA_setA_ne _ _ hj
      · have hge : ((w.offset + len : Nat) : Int) ≥ w.length := le_of_not_lt hcl
        refine ⟨?_, ?_, ?_, hcreate⟩
        · rw [patch_finalize_ok now aid hl hge]
          intro p hpm
          have h2 := mem_removeA hpm
          rcases mem_setA h2.1 with hmem | heq
          · exact hinv p hmem
          · exact absurd (by rw [heq]) h2.2
        · intro rok u u1 hu hu1
          injection hu with hu
          subst hu
          cases rok with
          | true =>
            rw [patch_finalize_ok now aid hl hge] at hu1
            simp only [lookupA_removeA_self] at hu1
            exact absurd hu1 (by simp)
          | false =>
            rw [patch_finalize_fail now aid hl hge] at hu1
            simp only [lookupA_setA_self] at hu1
            injection hu1 with hu1
            rw [← hu1]
            exact Nat.le_add_right _ _
        · intro rok j hj
          cases rok with
          | true =>
            rw [patch_finalize_ok now aid hl hge]
            show lookupA j (removeA uploadId
              (setA uploadId { w with offset := w.offset + len } st.uploads)) =
              lookupA j st.uploads
            rw [lookupA_removeA_ne _ hj]
            exact lookupA_setA_ne _ _ hj
          | false =>
            rw [patch_finalize_fail now aid hl hge]
            exact lookupA_setA_ne _ _ hj
    · have hp : ∀ rok, patchUpload st uploadId co len rok now aid =
          (st, .offsetConflict) :=
        fun rok => patch_conflict len rok now aid hl hco
      refine ⟨?_, ?_, ?_, hcreate⟩
      · rw [hp true]; exact hinv
      · intro rok u u1 hu hu1
        injection hu with hu
        subst hu
        rw [hp rok] at hu1
        rw [show ((st, PatchResult.offsetConflict).1.uploads = st.uploads) from rfl] at hu1
        rw [hl] at hu1
        injection hu1 with hu1
        rw [← hu1]
      · intro rok j _
        rw [hp rok]

/-- Witness for C3's amended statement on the sample state. -/
theorem c3_witness :
    (∀ p ∈ (patchUpload sampleState 1 (some 0) 4 true 0 50).1.uploads,
        ((p : Nat × Session).2.offset : Int) ≤ p.2.length) ∧
    (∀ rok u u1, lookupA 1 sampleState.uploads = some u →
        lookupA 1 (patchUpload sampleState 1 (some 0) 4 rok 0 50).1.uploads =
          some u1 →
        u.offset ≤ u1.offset) ∧
    (∀ rok j, j ≠ 1 →
        lookupA j (patchUpload sampleState 1 (some 0) 4 rok 0 50).1.uploads =
          lookupA j sampleState.uploads) ∧
    (∀ (n : Int) header newId cnow, (0 : Int) < n →
        ∀ p ∈ (createUpload sampleState (some n) header newId cnow).1.uploads,
          ((p : Nat × Session).2.offset : Int) ≤ p.2.length) :=
  c3_amended_offsets_monotone_and_bounded sampleState 1 (some 0) 4 0 50 (by decide)

/-- C4 counterexample: a declared length of -5 is not a positive integer and
does not exceed the maximum, yet creation answers 201 Created and allocates
both a session and a temp blob instead of failing with 413. -/
theorem c4_counterexample :
    ¬ (0 < (-5 : Int)) ∧ (-5 : Int) ≤ maxUploadLength ∧
    (createUpload emptyState (some (-5)) "" 2 0).2 = CreateResult.created 2 ∧
    (createUpload emptyState (some (-5)) "" 2 0).1.uploads ≠ [] ∧
    (createUpload emptyState (some (-5)) "" 2 0).1.tempFiles ≠ [] := by decide

/-- C4 amended: creation fails with PayloadTooLarge (413) exactly when the
parsed declared length is NaN, zero, or exceeds the 25 GiB maximum --
negative declared lengths are accepted -- and whenever it fails no session or
temp blob is created (the state is returned unchanged). -/
theorem c4_amended_reject_characterization
    (st : ServerState) (n : Int) (header : String) (newId now : Nat) :
    ((createUpload st (some n) header newId now).2 = CreateResult.payloadTooLarge ↔
      n = 0 ∨ n > maxUploadLength) ∧
    (createUpload st none header newId now).2 = CreateResult.payloadTooLarge ∧
    (∀ ul, (createUpload st ul header newId now).2 = CreateResult.payloadTooLarge →
      (createUpload st ul header newId now).1 = st) := by
  refine ⟨?_, rfl, ?_⟩
  · by_cases h : n = 0 ∨ n > maxUploadLength
    · simp [createUpload, h]
    · simp [createUpload, h]
  · intro ul hres
    cases ul with
    | none => rfl
    | some m =>
      by_cases hm : m = 0 ∨ m > maxUploadLength
      · simp [createUpload, hm]
      · simp [createUpload, hm] at hres

/-- Witness for C4's amended statement: length 25 GiB + 1 byte. -/
theorem c4_witness :
    ((createUpload emptyState (some 26843545601) "" 3 0).2 =
        CreateResult.payloadTooLarge ↔
      (26843545601 : Int) = 0 ∨ (26843545601 : Int) > maxUploadLength) ∧
    (createUpload emptyState none "" 3 0).2 = CreateResult.payloadTooLarge ∧
    (∀ ul, (createUpload emptyState ul "" 3 0).2 = CreateResult.payloadTooLarge →
      (createUpload emptyState ul "" 3 0).1 = emptyState) :=
  c4_amended_reject_characterization emptyState 26843545601 "" 3 0

/-- C5 (code bug): the filename decoded from the Upload-Metadata header is
never sanitized.  For the header `filename Li4vZXZpbA==` (base64 of
`../evil`) the decoded value is stored verbatim in the session, the
permanent blob name derived from it at finalization contains the
client-supplied path separator, and the finalized record's path embeds the
`../` sequence. -/
theorem c5_filename_not_sanitized :
    (extractMeta "filename Li4vZXZpbA==").1 = "../evil" ∧
    containsChar (finalBlobName 50 (extractMeta "filename Li4vZXZpbA==").1) '/' = true ∧
    (runChunks 2 (createUpload emptyState (some 10) "filename Li4vZXZpbA==" 2 0).1
        [10] 50).assets =
      [(50, { id := 50, originalName := "../evil", fileName := "evil", size := 10, mimetype := "application/octet-stream", uploadDate := 50, filePath := "uploads/50-../evil" })] := by
  decide

/-- C6 counterexample: a completing chunk whose promotion (renameSync)
fails is still answered 204 with the advanced offset -- reported as success
-- and no AssetRecord is created; the InternalError required by the claim
never surfaces. -/
theorem c6_counterexample :
    (patchUpload sampleState 1 (some 0) 10 false 7 9).2 = PatchResult.ok 10 ∧
    (patchUpload sampleState 1 (some 0) 10 false 7 9).1.assets = [] ∧
    lookupA 1 (patchUpload sampleState 1 (some 0) 10 false 7 9).1.uploads =
      some { sampleSession with offset := 10 } := by decide

/-- C6 amended: when finalization fails, the session does remain in the
active set at its advanced post-write offset with no catalog, temp or blob
mutation -- so the upload is still resumable -- but the call reports success
(204 with the new offset); the promotion error is only logged, never
surfaced to the caller. -/
theorem c6_amended_finalization_failure_silent
    (st : ServerState) (uploadId : Nat) (u : Session) (len : Nat) (now aid : Nat)
    (h : lookupA uploadId st.uploads = some u)
    (hge : ((u.offset + len : Nat) : Int) ≥ u.length) :
    patchUpload st uploadId (some (u.offset : Int)) len false now aid =
      ({ st with uploads := setA uploadId { u with offset := u.offset + len } st.uploads },
       PatchResult.ok (u.offset + len)) ∧
    lookupA uploadId (setA uploadId { u with offset := u.offset + len } st.uploads) =
      some { u with offset := u.offset + len } :=
  ⟨patch_finalize_fail now aid h hge, lookupA_setA_self _ _ _⟩

/-- Witness for C6's amended statement: the sample session completed by a
10-byte chunk whose rename fails. -/
theorem c6_witness :
    patchUpload sampleState 1 (some (sampleSession.offset : Int)) 10 false 7 9 =
      ({ sampleState with
          uploads := setA 1 { sampleSession with offset := sampleSession.offset + 10 }
            sampleState.uploads },
       PatchResult.ok (sampleSession.offset + 10)) ∧
    lookupA 1 (setA 1 { sampleSession with offset := sampleSession.offset + 10 }
        sampleState.uploads) =
      some { sampleSession with offset := sampleSession.offset + 10 } :=
  c6_amended_finalization_failure_silent sampleState 1 sampleSession 10 7 9
    rfl (by decide)

/-- C7: deleting a known asset removes the backend blob and only then the
catalog entry: when blob removal fails the whole state is unchanged (the
catalog entry is retained) and the error is surfaced as a 500; after any
successful delete the asset id is gone from the catalog, appears in no
List() summary, Download answers NotFound, and the blob is no longer on
disk. -/
theorem c7_delete_blob_then_catalog
    (st : ServerState) (fileId : Nat) (m : AssetRecord)
    (h : lookupA fileId st.assets = some m)
    (hids : ∀ p ∈ st.assets, (p : Nat × AssetRecord).2.id = p.1) :
    (containsStr st.blobs m.filePath = true →
      deleteFile st fileId false = (st, DeleteResult.deleteFailed)) ∧
    (∀ uok, (deleteFile st fileId uok).2 = DeleteResult.deleted →
      lookupA fileId (deleteFile st fileId uok).1.assets = none ∧
      (∀ s ∈ listFiles (deleteFile st fileId uok).1, s.id ≠ fileId) ∧
      downloadFile (deleteFile st fileId uok).1 fileId = DownloadResult.notFound ∧
      containsStr (deleteFile st fileId uok).1.blobs m.filePath = false) := by
  have hsummaries : ∀ (st2 : ServerState), st2.assets = removeA fileId st.assets →
      ∀ s ∈ listFiles st2, s.id ≠ fileId := by
    intro st2 hst2 s hs
    rcases List.mem_map.mp (by rw [listFiles, hst2] at hs; exact hs) with ⟨p, hp, hsp⟩
    have h2 := mem_removeA hp
    have h3 := hids p h2.1
    rw [← hsp]
    simpa [h3] using h2.2
  constructor
  · intro hcb
    simp [deleteFile, h, hcb]
  · intro uok _
    by_cases hcb : containsStr st.blobs m.filePath = true
    · cases uok with
      | true =>
        have hd : deleteFile st fileId true =
            ({ st with blobs := st.blobs.filter (fun b => decide (b ≠ m.filePath)),
                       assets := removeA fileId st.assets }, DeleteResult.deleted) := by
          simp [deleteFile, h, hcb]
        rw [hd]
        refine ⟨lookupA_removeA_self _ _, hsummaries _ rfl, ?_, ?_⟩
        · simp [downloadFile, lookupA_removeA_self]
        · exact containsStr_filter_self _ _
      | false =>
        have hd : deleteFile st fileId false = (st, DeleteResult.deleteFailed) := by
          simp [deleteFile, h, hcb]
        rename_i hdel
        rw [hd] at hdel
        exact absurd hdel (by simp)
    · have hcb2 : containsStr st.blobs m.filePath = false :=
        Bool.eq_false_iff.mpr hcb
      have hd : deleteFile st fileId uok =
          ({ st with assets := removeA fileId st.assets }, DeleteResult.deleted) := by
        simp [deleteFile, h, hcb2]
      rw [hd]
      refine ⟨lookupA_removeA_self _ _, hsummaries _ rfl, ?_, hcb2⟩
      simp [downloadFile, lookupA_removeA_self]

/-- Witness for C7 on a state with one catalogued asset whose blob is on
disk. -/
theorem c7_witness :
    (containsStr assetState.blobs sampleAsset.filePath = true →
      deleteFile assetState 5 false = (assetState, DeleteResult.deleteFailed)) ∧
    (∀ uok, (deleteFile assetState 5 uok).2 = DeleteResult.deleted →
      lookupA 5 (deleteFile assetState 5 uok).1.assets = none ∧
      (∀ s ∈ listFiles (deleteFile assetState 5 uok).1, s.id ≠ 5) ∧
      downloadFile (deleteFile assetState 5 uok).1 5 = DownloadResult.notFound ∧
      containsStr (deleteFile assetState 5 uok).1.blobs sampleAsset.filePath = false) :=
  c7_delete_blob_then_catalog assetState 5 sampleAsset rfl (by decide)

/-- C8 counterexample: a temp blob older than 24 hours whose session is
still active is deleted by the sweep rather than retained -- the sweep never
consults the active-session map. -/
theorem c8_counterexample :
    lookupA 1 (cleanupTempFiles sampleState 90000000).uploads = some sampleSession ∧
    lookupA 1 sampleState.tempFiles = some 0 ∧
    90000000 - 0 > retentionMs ∧
    (cleanupTempFiles sampleState 90000000).tempFiles = [] := by decide

/-- C8 amended: the sweep deletes a temp blob exactly when its age exceeds
the 24-hour threshold, regardless of active sessions (which it never
consults and leaves untouched).  The program runs the sweep only once, at
startup, when the active-session map is empty, so in the running program no
live session's blob is ever swept. -/
theorem c8_amended_age_only_sweep (st : ServerState) (now : Nat) :
    (cleanupTempFiles st now).uploads = st.uploads ∧
    (cleanupTempFiles st now).assets = st.assets ∧
    (cleanupTempFiles st now).blobs = st.blobs ∧
    ∀ f : Nat × Nat, f ∈ (cleanupTempFiles st now).tempFiles ↔
      f ∈ st.tempFiles ∧ ¬ (now - f.2 > retentionMs) := by
  refine ⟨rfl, rfl, rfl, ?_⟩
  intro f
  simp [cleanupTempFiles, List.mem_filter]

/-- C10: an AppendChunk at the correct offset with an empty byte stream on a
strictly incomplete session succeeds (204) with the unchanged offset, does
not finalize, and observably changes nothing: every session lookup, the
catalog, the temp area and the blob set are unchanged. -/
theorem c10_empty_chunk_is_noop
    (st : ServerState) (uploadId : Nat) (u : Session) (rok : Bool) (now aid : Nat)
    (h : lookupA uploadId st.uploads = some u)
    (hlt : (u.offset : Int) < u.length) :
    (patchUpload st uploadId (some (u.offset : Int)) 0 rok now aid).2 =
      PatchResult.ok u.offset ∧
    (∀ j, lookupA j (patchUpload st uploadId (some (u.offset : Int)) 0 rok now aid).1.uploads =
      lookupA j st.uploads) ∧
    (patchUpload st uploadId (some (u.offset : Int)) 0 rok now aid).1.assets = st.assets ∧
    (patchUpload st uploadId (some (u.offset : Int)) 0 rok now aid).1.tempFiles = st.tempFiles ∧
    (patchUpload st uploadId (some (u.offset : Int)) 0 rok now aid).1.blobs = st.blobs := by
  have hlt0 : ((u.offset + 0 : Nat) : Int) < u.length := by simpa using hlt
  have hp := patch_advance rok now aid h hlt0
  rw [hp]
  exact ⟨rfl, fun j => lookupA_setA_of_eq h j, rfl, rfl, rfl⟩

/-- Witness for C10: an empty chunk at offset 0 of the sample session. -/
theorem c10_witness :
    (patchUpload sampleState 1 (some (sampleSession.offset : Int)) 0 true 3 4).2 =
      PatchResult.ok sampleSession.offset ∧
    (∀ j, lookupA j (patchUpload sampleState 1 (some (sampleSession.offset : Int)) 0 true 3 4).1.uploads =
      lookupA j sampleState.uploads) ∧
    (patchUpload sampleState 1 (some (sampleSession.offset : Int)) 0 true 3 4).1.assets =
      sampleState.assets ∧
    (patchUpload sampleState 1 (some (sampleSession.offset : Int)) 0 true 3 4).1.tempFiles =
      sampleState.tempFiles ∧
    (patchUpload sampleState 1 (some (sampleSession.offset : Int)) 0 true 3 4).1.blobs =
      sampleState.blobs :=
  c10_empty_chunk_is_noop sampleState 1 sampleSession true 3 4 rfl (by decide)

end FileUpload
